import Mathlib

/-!
Shallow embedding of the online incremental forecasting engine of
src/lib/online_forecasting.py (class OnlineLinearRegression and class
OnlineForecastingService).  Prices and all numeric quantities are modelled
as exact rationals.  The single non-rational numeric primitive the code
uses, the square root inside np.std and inside sklearn's StandardScaler
scale computation, is isolated as an explicit function parameter
(sqrtF : Q -> Q) so that every definition stays computable and every
theorem quantifies over the platform's actual square-root values.
Wall-clock timestamps attached to forecast points are I/O and are outside
the embedding; a forecast is modelled as the ordered list of its five
forecast_price values (minute k is position k, 1-based).
-/

namespace OnlineForecasting

open Matrix

/-- The service attribute sequence_length (online_forecasting.py line 140). -/
def sequence_length : Nat := 20

/-- The service attribute forecast_horizon (line 141). -/
def forecast_horizon : Nat := 5

/-- Embedding of np.clip(x, lo, hi): numpy first takes the maximum with lo,
then the minimum with hi (so if lo > hi the result is hi). -/
def npClip (x lo hi : ℚ) : ℚ := min (max x lo) hi

/-- Embedding of the python slice l[-n:] for n > 0: the last n elements
(the whole list when it is shorter than n). -/
def lastN (n : Nat) (l : List ℚ) : List ℚ := l.drop (l.length - n)

/-- Embedding of np.mean on a 1-d array (on the empty array the rational
embedding yields 0 by division by zero; numpy would warn and give nan, a
case none of the call sites reach). -/
def listMean (l : List ℚ) : ℚ := l.sum / l.length

/-- Embedding of np.diff on a 1-d array: successive differences. -/
def npDiff (l : List ℚ) : List ℚ := List.zipWith (fun a b => b - a) l l.tail

/-- Population variance (np.var with the default ddof = 0); np.std is its
square root, taken via the sqrtF parameter at the call sites. -/
def listPopVar (l : List ℚ) : ℚ := listMean (l.map (fun x => (x - listMean l) ^ 2))

/-- The forecast-accumulation loop of simple_trend_forecast (lines 445-463):
argument i is the python loop index (dampening 0.7 ** i), fuel the number of
remaining steps, last the running last_price.  Each produced price is
clipped to [0.93 * cp, 1.07 * cp] before being appended and carried. -/
def trendLoop (cp avg : ℚ) : Nat → Nat → ℚ → List ℚ
  | _, 0, _ => []
  | i, fuel + 1, last =>
      let change := avg * (7 / 10) ^ i
      let fp := npClip (last + change) (cp * (93 / 100)) (cp * (107 / 100))
      fp :: trendLoop cp avg (i + 1) fuel fp

/-- Embedding of OnlineForecastingService.simple_trend_forecast
(lines 421-465), returning the ordered forecast_price values. -/
def simple_trend_forecast (current_price : ℚ) (recent_prices : List ℚ) : List ℚ :=
  if recent_prices.length < 3 then
    List.replicate forecast_horizon current_price
  else
    let recent_changes :=
      if 10 ≤ recent_prices.length then npDiff (lastN 10 recent_prices)
      else npDiff recent_prices
    let avg_change := listMean recent_changes
    let max_change := current_price * (5 / 1000)
    let avg_clipped := npClip avg_change (-max_change) max_change
    trendLoop current_price avg_clipped 0 forecast_horizon current_price

/-- The forecast-accumulation loop of the model-based path of
forecast_prices (lines 391-413): dampening 0.3 ** (i + 1), per-step trend
factor clipped to plus-or-minus 0.005, compounded multiplicatively, each
price clipped to [0.93 * cp, 1.07 * cp]. -/
def modelLoop (cp base_trend : ℚ) : Nat → Nat → ℚ → List ℚ
  | _, 0, _ => []
  | i, fuel + 1, last =>
      let dampening := (3 / 10) ^ (i + 1)
      let trend_factor := npClip (base_trend * dampening) (-(5 / 1000)) (5 / 1000)
      let fp := npClip (last * (1 + trend_factor)) (cp * (93 / 100)) (cp * (107 / 100))
      fp :: modelLoop cp base_trend (i + 1) fuel fp

/-- The model-based 5-step horizon expansion of forecast_prices starting
from last_price = current_price. -/
def modelForecast (cp base_trend : ℚ) : List ℚ :=
  modelLoop cp base_trend 0 forecast_horizon cp

/-- State of class OnlineLinearRegression (lines 27-107).  In the code
weights/sum_xx/sum_xy are None before the first partial_fit and are
initialized to zeros there; the embedding starts the accumulators at zero
(an equivalent initialization) and keeps the Option only on weights, which
predict branches on.  The feature dimension d, fixed at first fit in the
code, indexes the type. -/
structure OLRState (d : Nat) where
  learning_rate : ℚ
  regularization : ℚ
  weights : Option (Fin d → ℚ)
  bias : ℚ
  n_samples : Nat
  sum_xx : Matrix (Fin d) (Fin d) ℚ
  sum_xy : Fin d → ℚ

/-- A freshly constructed OnlineLinearRegression(learning_rate, regularization). -/
def olrInit (d : Nat) (lr reg : ℚ) : OLRState d :=
  ⟨lr, reg, none, 0, 0, 0, 0⟩

/-- Embedding of np.linalg.solve(A, b): raises LinAlgError exactly on a
singular A (modelled as none); on a nonsingular A the unique solution is
written by Cramer's rule as det(A)⁻¹ • (adjugate A *ᵥ b), which is
computable (Mathlib's Matrix.inv is noncomputable). -/
def npSolve {d : Nat} (A : Matrix (Fin d) (Fin d) ℚ) (b : Fin d → ℚ) : Option (Fin d → ℚ) :=
  if A.det = 0 then none else some (A.det⁻¹ • (A.adjugate *ᵥ b))

/-- Embedding of np.linalg.pinv(A) @ b as used in the except-branch of
partial_fit (lines 68-71).  There A = sum_xx + (lambda + 1e-6) I with
sum_xx a sum of Gram matrices Xᵀ * X, hence positive semidefinite, so A is
positive definite and invertible, and the Moore-Penrose pseudo-inverse of
an invertible matrix is its ordinary inverse: that inverse is returned.
On a singular A (unreachable from partial_fit) the embedding returns the
zero vector; like numpy's pinv it is finite and raises nothing. -/
def npPinvMulVec {d : Nat} (A : Matrix (Fin d) (Fin d) ℚ) (b : Fin d → ℚ) : Fin d → ℚ :=
  if A.det = 0 then 0 else A.det⁻¹ • (A.adjugate *ᵥ b)

/-- Embedding of OnlineLinearRegression.partial_fit (lines 40-76) on a
batch of m feature rows: accumulate Xᵀ X and Xᵀ y, solve the regularized
normal equation, fall back to the pseudo-inverse with regularization
lambda + 1e-6 when the matrix is singular, and recompute the bias as the
mean residual of this batch (the division by m is rational division, with
the m = 0 case unreachable from the call sites). -/
def olrPartialFit {d m : Nat} (s : OLRState d) (X : Matrix (Fin m) (Fin d) ℚ)
    (y : Fin m → ℚ) : OLRState d :=
  let sum_xx := s.sum_xx + Xᵀ * X
  let sum_xy := s.sum_xy + Xᵀ *ᵥ y
  let A := sum_xx + s.regularization • (1 : Matrix (Fin d) (Fin d) ℚ)
  let w := match npSolve A sum_xy with
    | some w => w
    | none => npPinvMulVec (sum_xx + (s.regularization + 1 / 1000000) • 1) sum_xy
  let residuals := y - X *ᵥ w
  { s with weights := some w, bias := (∑ i, residuals i) / (m : ℚ),
           n_samples := s.n_samples + m, sum_xx := sum_xx, sum_xy := sum_xy }

/-- Dot product of two equal-length lists, the row-times-weights product. -/
def dotQ (a b : List ℚ) : ℚ := (List.zipWith (· * ·) a b).sum

/-- Embedding of OnlineLinearRegression.predict (lines 78-87) applied to a
single feature row given as a list: with no weights yet the code returns
np.zeros(len(X)), whose only entry for the one-row call is 0; with weights
of a mismatched length the matrix product raises, modelled as none. -/
def olrPredictRow {d : Nat} (s : OLRState d) (x : List ℚ) : Option ℚ :=
  match s.weights with
  | none => some 0
  | some w => if x.length = d then some (dotQ x (List.ofFn w) + s.bias) else none

/-- State of a per-symbol sklearn StandardScaler: the fitted flag (mean_
present), running per-column mean and population variance, and the sample
count.  The stored scale_ is sqrt(var_) with zeros replaced by 1; the
embedding recomputes it from var_ through the sqrtF parameter at use
sites. -/
structure ScalerState where
  fitted : Bool
  mean : List ℚ
  var : List ℚ
  n_seen : Nat

/-- A freshly constructed StandardScaler(). -/
def scalerInit : ScalerState := ⟨false, [], [], 0⟩

/-- sklearn's _handle_zeros_in_scale on one sqrt-of-variance entry: a zero
scale is replaced by 1 so the division below never divides by zero. -/
def handleZero (s : ℚ) : ℚ := if s = 0 then 1 else s

/-- Embedding of StandardScaler.transform on one row: (x - mean_) / scale_
elementwise; raises (none) when the scaler is not fitted or the row width
does not match the fitted dimension. -/
def scalerTransformRow (sqrtF : ℚ → ℚ) (sc : ScalerState) (x : List ℚ) : Option (List ℚ) :=
  if sc.fitted = true ∧ x.length = sc.mean.length ∧ sc.mean.length = sc.var.length then
    some (List.zipWith3 (fun xi mi vi => (xi - mi) / handleZero (sqrtF vi)) x sc.mean sc.var)
  else none

/-- The inference feature vector built by forecast_prices (lines 306-337):
basic statistics and trends of the last up-to-30 prices, the window
front-padded with the current price to sequence_length entries, everything
normalized by the current price; np.std enters through sqrtF. -/
def inferenceFeatures (sqrtF : ℚ → ℚ) (current_price : ℚ) (recent_prices : List ℚ) : List ℚ :=
  let sequence := if 30 ≤ recent_prices.length then lastN 30 recent_prices else recent_prices
  let price_mean := listMean sequence
  let price_std := sqrtF (listPopVar sequence)
  let short_trend := if 5 ≤ sequence.length then listMean (npDiff (lastN 5 sequence)) else 0
  let medium_trend :=
    if 15 ≤ sequence.length then listMean (npDiff (lastN 15 sequence)) else short_trend
  let window :=
    if sequence.length < sequence_length then
      List.replicate (sequence_length - sequence.length) current_price ++ sequence
    else lastN sequence_length sequence
  window.map (· / current_price) ++
    [1, short_trend / current_price, medium_trend / current_price,
      price_mean / current_price, price_std / current_price]

/-- The try-block of forecast_prices (lines 343-345): scale the inference
feature vector and predict the normalized next-price value; none models
the caught exception (scaler not fitted, or a dimension mismatch). -/
def modelPrediction {d : Nat} (sqrtF : ℚ → ℚ) (reg : OLRState d) (sc : ScalerState)
    (current_price : ℚ) (recent_prices : List ℚ) : Option ℚ :=
  (scalerTransformRow sqrtF sc (inferenceFeatures sqrtF current_price recent_prices)).bind
    (olrPredictRow reg)

/-- Embedding of OnlineForecastingService.forecast_prices (lines 296-419).
entry is the per-symbol registry lookup, none when the symbol has no
model.  The result is the ordered list of the five forecast_price
values. -/
def forecast_prices {d : Nat} (sqrtF : ℚ → ℚ) (entry : Option (OLRState d × ScalerState))
    (current_price : ℚ) (recent_prices : List ℚ) : List ℚ :=
  match entry with
  | none => simple_trend_forecast current_price recent_prices
  | some (reg, sc) =>
    if recent_prices.length < 5 then simple_trend_forecast current_price recent_prices
    else
      match modelPrediction sqrtF reg sc current_price recent_prices with
      | none => simple_trend_forecast current_price recent_prices
      | some normalized_prediction =>
        if normalized_prediction < 1 / 2 ∨ 2 < normalized_prediction then
          simple_trend_forecast current_price recent_prices
        else
          let next_price_prediction := normalized_prediction * current_price
          let max_price := current_price * (1 + 2 / 100)
          let min_price := current_price * (1 - 2 / 100)
          let next_price := npClip next_price_prediction min_price max_price
          if 1 / 100 < |next_price - current_price| / current_price then
            simple_trend_forecast current_price recent_prices
          else
            modelForecast current_price ((next_price - current_price) / current_price)

/-- One training feature row of prepare_features (lines 223-249) at index
i: the window is prices[i - 20 .. i - 1], the reference price is
prices[i - 1].  List accesses use getD with default 0; every call site
keeps sequence_length ≤ i < prices.length, so all indices are in range. -/
def featureRow (sqrtF : ℚ → ℚ) (prices : List ℚ) (i : Nat) : List ℚ :=
  let sequence := (prices.drop (i - sequence_length)).take sequence_length
  let current_price := prices.getD (i - 1) 0
  let price_change := prices.getD i 0 - current_price
  let price_mean := listMean sequence
  let price_std := if 1 < sequence.length then sqrtF (listPopVar sequence) else 0
  let price_trend := if 0 < sequence.length then sequence.getLastD 0 - sequence.headD 0 else 0
  let normalized_sequence :=
    if 0 < current_price then sequence.map (· / current_price) else sequence
  let normalized_change := if 0 < current_price then price_change / current_price else 0
  let normalized_mean := if 0 < current_price then price_mean / current_price else 1
  let normalized_std := if 0 < current_price then price_std / current_price else 0
  let normalized_trend := if 0 < current_price then price_trend / current_price else 0
  normalized_sequence ++
    [1, normalized_change, normalized_mean, normalized_std, normalized_trend]

/-- One training target of prepare_features (lines 251-254) at index i:
the next price normalized by the reference price. -/
def targetAt (prices : List ℚ) (i : Nat) : ℚ :=
  let current_price := prices.getD (i - 1) 0
  if 0 < current_price then prices.getD i 0 / current_price else 1

/-- Embedding of OnlineForecastingService.prepare_features (lines
213-259): the input is the price_usd column of the cleaned frame, the
result none models the (None, None) return. -/
def prepare_features (sqrtF : ℚ → ℚ) (prices : List ℚ) :
    Option (List (List ℚ) × List ℚ) :=
  if prices.length < 2 then none
  else
    let idxs := List.range' sequence_length (prices.length - sequence_length)
    let features := idxs.map (featureRow sqrtF prices)
    let targets := idxs.map (targetAt prices)
    if features.length = 0 then none else some (features, targets)

/-- Width of a batch of feature rows: the length of its first row (numpy
turns a list of equal-length lists into an array of that width). -/
def batchWidth (X : List (List ℚ)) : Nat := (X.headD []).length

/-- A batch numpy accepts as a 2-d float array: every row has the width of
the first. -/
def rectangular (X : List (List ℚ)) : Prop := ∀ r ∈ X, r.length = batchWidth X

instance (X : List (List ℚ)) : Decidable (rectangular X) :=
  List.decidableBAll _ X

/-- Column j of a batch. -/
def colAt (X : List (List ℚ)) (j : Nat) : List ℚ := X.map (fun r => r.getD j 0)

/-- Per-column means of a batch. -/
def colMeans (X : List (List ℚ)) : List ℚ :=
  (List.range (batchWidth X)).map (fun j => listMean (colAt X j))

/-- Per-column population variances of a batch. -/
def colVars (X : List (List ℚ)) : List ℚ :=
  (List.range (batchWidth X)).map (fun j => listPopVar (colAt X j))

/-- The python exceptions that can escape the training path; the code of
train_incremental_model has no try/except, so each of these propagates to
the caller. -/
inductive TrainErr where
  | scalerBatch
  | scalerDim
  | modelDim
deriving DecidableEq

/-- StandardScaler.fit on a batch (the first multi-sample call): sklearn
rejects an empty or ragged batch, otherwise stores the batch statistics. -/
def scalerFitE (X : List (List ℚ)) : Except TrainErr ScalerState :=
  if X ≠ [] ∧ rectangular X then
    .ok ⟨true, colMeans X, colVars X, X.length⟩
  else .error .scalerBatch

/-- StandardScaler.partial_fit: the first call behaves like fit, later
calls reject a batch whose width differs from the fitted dimension and
otherwise combine the stored mean/var with the batch statistics by
sklearn's pooled population mean/variance update. -/
def scalerPartialFitE (sc : ScalerState) (X : List (List ℚ)) : Except TrainErr ScalerState :=
  if sc.fitted = false then scalerFitE X
  else if X ≠ [] ∧ rectangular X then
    if batchWidth X = sc.mean.length ∧ sc.mean.length = sc.var.length then
      let n : ℚ := sc.n_seen
      let m : ℚ := X.length
      let bm := colMeans X
      let bv := colVars X
      let meanDiff := List.zipWith (fun mu bmu => mu - bmu) sc.mean bm
      let newMean := List.zipWith (fun mu bmu => (n * mu + m * bmu) / (n + m)) sc.mean bm
      let newVar := List.zipWith3
        (fun v p q => (n * v + m * p + n * m / (n + m) * q ^ 2) / (n + m)) sc.var bv meanDiff
      .ok ⟨true, newMean, newVar, sc.n_seen + X.length⟩
    else .error .scalerDim
  else .error .scalerBatch

/-- StandardScaler.transform on a whole batch in the training path. -/
def scalerTransformE (sqrtF : ℚ → ℚ) (sc : ScalerState) (X : List (List ℚ)) :
    Except TrainErr (List (List ℚ)) :=
  match X.mapM (scalerTransformRow sqrtF sc) with
  | some rows => .ok rows
  | none => .error .scalerDim

/-- partial_fit called from the training path with list-shaped data: numpy
raises on a width or length mismatch (modelled as error .modelDim),
otherwise the matrix-level update of olrPartialFit runs. -/
def olrPartialFitL {d : Nat} (s : OLRState d) (X : List (List ℚ)) (y : List ℚ) :
    Except TrainErr (OLRState d) :=
  if (∀ r ∈ X, r.length = d) ∧ y.length = X.length then
    .ok (olrPartialFit s (Matrix.of fun i j => ((X.get i).getD j 0 : ℚ))
      (fun i : Fin X.length => y.getD i 0))
  else .error .modelDim

/-- Embedding of OnlineForecastingService.train_incremental_model (lines
261-294).  entry none models the lazy creation of a fresh
OnlineLinearRegression(learning_rate 0.001, regularization 0.01) and
StandardScaler for an unseen symbol.  The Except result models an
exception escaping the call: the code has no try/except in this method,
so a scaler or model failure propagates to the caller and the regressor is
not updated. -/
def train_incremental_model {d : Nat} (sqrtF : ℚ → ℚ)
    (entry : Option (OLRState d × ScalerState)) (features : List (List ℚ))
    (targets : List ℚ) : Except TrainErr (OLRState d × ScalerState) :=
  let st := entry.getD (olrInit d (1 / 1000) (1 / 100), scalerInit)
  let reg := st.1
  let sc := st.2
  if features.length = 1 then do
    let sc1 ← scalerPartialFitE sc features
    let fs ← scalerTransformE sqrtF sc1 features
    let reg1 ← olrPartialFitL reg fs targets
    .ok (reg1, sc1)
  else if sc.fitted = false then do
    let sc1 ← scalerFitE features
    let fs ← scalerTransformE sqrtF sc1 features
    let reg1 ← olrPartialFitL reg fs targets
    .ok (reg1, sc1)
  else do
    let sc1 ← scalerPartialFitE sc features
    let fs ← scalerTransformE sqrtF sc1 features
    let reg1 ← olrPartialFitL reg fs targets
    .ok (reg1, sc1)

/-- The model-path horizon loop with the final 7-percent clip removed,
used only to state that the clip never binds on the model path. -/
def modelLoopU (cp base_trend : ℚ) : Nat → Nat → ℚ → List ℚ
  | _, 0, _ => []
  | i, fuel + 1, last =>
      let dampening := (3 / 10) ^ (i + 1)
      let trend_factor := npClip (base_trend * dampening) (-(5 / 1000)) (5 / 1000)
      let fp := last * (1 + trend_factor)
      fp :: modelLoopU cp base_trend (i + 1) fuel fp

/-- The unclamped model-path expansion from the current price. -/
def modelForecastU (cp base_trend : ℚ) : List ℚ :=
  modelLoopU cp base_trend 0 forecast_horizon cp

/-- Written from the claim's formula for the trend fallback (spec section
4.4, TrendFallback): average delta over the successive differences of the
last min(10, n) observations, clipped to half a percent of the current
price, and for step k = 1..5 the dampened delta avg_delta * 0.7 ^ k added
to the previous price, clamped to the 7-percent band.  This definition
follows the spec's words and is compared against the code's
simple_trend_forecast. -/
def claimedTrendStep (cp avg : ℚ) : Nat → ℚ
  | 0 => cp
  | k + 1 => npClip (claimedTrendStep cp avg k + avg * (7 / 10) ^ (k + 1))
      (cp * (93 / 100)) (cp * (107 / 100))

/-- The full claimed trend fallback (see claimedTrendStep). -/
def claimedTrendForecast (cp : ℚ) (recent : List ℚ) : List ℚ :=
  if recent.length < 3 then List.replicate 5 cp
  else
    let window := lastN (min 10 recent.length) recent
    let avg := npClip (listMean (npDiff window)) (-(cp * (5 / 1000))) (cp * (5 / 1000))
    (List.range 5).map (fun k => claimedTrendStep cp avg (k + 1))

/-- The trend fallback as the claim must be amended: the dampening
exponent for step k is k - 1, so the first step applies the undampened
average delta.  Everything else is as in claimedTrendStep. -/
def amendedTrendStep (cp avg : ℚ) : Nat → ℚ
  | 0 => cp
  | k + 1 => npClip (amendedTrendStep cp avg k + avg * (7 / 10) ^ k)
      (cp * (93 / 100)) (cp * (107 / 100))

/-- The full amended trend fallback (see amendedTrendStep). -/
def amendedTrendForecast (cp : ℚ) (recent : List ℚ) : List ℚ :=
  if recent.length < 3 then List.replicate 5 cp
  else
    let window := lastN (min 10 recent.length) recent
    let avg := npClip (listMean (npDiff window)) (-(cp * (5 / 1000))) (cp * (5 / 1000))
    (List.range 5).map (fun k => amendedTrendStep cp avg (k + 1))

/-- The worked example of the spec (section 8, dampened trend law):
current price 100, ten observations rising by 0.1 each. -/
def exRecent : List ℚ :=
  [100, 1001 / 10, 1002 / 10, 1003 / 10, 1004 / 10,
    1005 / 10, 1006 / 10, 1007 / 10, 1008 / 10, 1009 / 10]

/-- A 22-point price series: constant at 100 and jumping to 110 at the
last point; it separates the change-ratio feature the code computes from
the one the claim states. -/
def exPrices : List ℚ := List.replicate 21 100 ++ [110]

/-- A concrete stand-in for the square-root primitive, used by witnesses
(any function works there). -/
def sqrtZero : ℚ → ℚ := fun _ => 0

/-- A 2 x 2 batch with two identical feature rows (so its cross-product
matrix is singular), for the singular-robustness witness. -/
def exX : Matrix (Fin 2) (Fin 2) ℚ := Matrix.of ![![1, 2], ![1, 2]]

/-- The common row of exX. -/
def exRow : Fin 2 → ℚ := ![1, 2]

/-- Targets aligned with exX. -/
def exY : Fin 2 → ℚ := ![1, 1]

/-- A scaler state already fitted at feature width 2; a width-3 batch then
makes its partial_fit raise, which exercises the training error path. -/
def exScBad : ScalerState := ⟨true, [0, 0], [1, 1], 5⟩

/-- The base_trend value (line 386) the model path hands to its horizon
loop: the clipped predicted next price relative to the current price (0 in
the unreachable case where prediction failed). -/
def modelBase {d : Nat} (sqrtF : ℚ → ℚ) (reg : OLRState d) (sc : ScalerState)
    (cp : ℚ) (recent : List ℚ) : ℚ :=
  match modelPrediction sqrtF reg sc cp recent with
  | none => 0
  | some np =>
      (npClip (np * cp) (cp * (1 - 2 / 100)) (cp * (1 + 2 / 100)) - cp) / cp

/-- A regressor state whose prediction is the constant 1.05, used by the
witness of the instability-guard theorem. -/
def exReg : OLRState 25 := ⟨1 / 1000, 1 / 100, some (fun _ => 0), 21 / 20, 0, 0, 0⟩

/-- A fitted scaler state with zero means and zero variances (scale 1),
used by the witness of the instability-guard theorem. -/
def exSc : ScalerState := ⟨true, List.replicate 25 0, List.replicate 25 0, 1⟩

/-! ## General lemmas about the clip and the two horizon loops -/

lemma npClip_mem {x lo hi : ℚ} (h : lo ≤ hi) :
    lo ≤ npClip x lo hi ∧ npClip x lo hi ≤ hi :=
  ⟨le_min (le_max_right x lo) h, min_le_right _ _⟩

lemma npClip_eq_self {x lo hi : ℚ} (h1 : lo ≤ x) (h2 : x ≤ hi) : npClip x lo hi = x := by
  unfold npClip
  rw [max_eq_left h1, min_eq_left h2]

lemma trendLoop_mem_bounds {cp avg : ℚ} (h : cp * (93 / 100) ≤ cp * (107 / 100)) :
    ∀ (fuel i : Nat) (last p : ℚ), p ∈ trendLoop cp avg i fuel last →
      cp * (93 / 100) ≤ p ∧ p ≤ cp * (107 / 100) := by
  intro fuel
  induction fuel with
  | zero => intro i last p hp; simp [trendLoop] at hp
  | succ n ih =>
    intro i last p hp
    simp only [trendLoop, List.mem_cons] at hp
    rcases hp with rfl | h2
    · exact npClip_mem h
    · exact ih _ _ _ h2

lemma modelLoop_mem_bounds {cp base : ℚ} (h : cp * (93 / 100) ≤ cp * (107 / 100)) :
    ∀ (fuel i : Nat) (last p : ℚ), p ∈ modelLoop cp base i fuel last →
      cp * (93 / 100) ≤ p ∧ p ≤ cp * (107 / 100) := by
  intro fuel
  induction fuel with
  | zero => intro i last p hp; simp [modelLoop] at hp
  | succ n ih =>
    intro i last p hp
    simp only [modelLoop, List.mem_cons] at hp
    rcases hp with rfl | h2
    · exact npClip_mem h
    · exact ih _ _ _ h2

lemma simple_trend_forecast_bounds {cp : ℚ} (hcp : 0 < cp) (recent : List ℚ) :
    ∀ p ∈ simple_trend_forecast cp recent,
      cp * (93 / 100) ≤ p ∧ p ≤ cp * (107 / 100) := by
  intro p hp
  have hband : cp * (93 / 100) ≤ cp * (107 / 100) := by nlinarith
  unfold simple_trend_forecast at hp
  split at hp
  · have hpc := List.eq_of_mem_replicate hp
    subst hpc
    constructor <;> nlinarith
  · exact trendLoop_mem_bounds hband _ _ _ _ hp

/-! ## Claim theorems -/

/-- C1: for every forecast call, model-based or trend-fallback, with a
positive current price and any recent-price history, every forecast price
lies in the closed band [0.93 * current_price, 1.07 * current_price]. -/
theorem forecast_prices_bounded {d : Nat} (sqrtF : ℚ → ℚ)
    (entry : Option (OLRState d × ScalerState)) (cp : ℚ) (recent : List ℚ)
    (hcp : 0 < cp) :
    ∀ p ∈ forecast_prices sqrtF entry cp recent,
      cp * (93 / 100) ≤ p ∧ p ≤ cp * (107 / 100) := by
  intro p hp
  have hband : cp * (93 / 100) ≤ cp * (107 / 100) := by nlinarith
  cases entry with
  | none => exact simple_trend_forecast_bounds hcp recent p hp
  | some pr =>
    obtain ⟨reg, sc⟩ := pr
    simp only [forecast_prices] at hp
    split at hp
    · exact simple_trend_forecast_bounds hcp recent p hp
    · split at hp
      · exact simple_trend_forecast_bounds hcp recent p hp
      · split at hp
        · exact simple_trend_forecast_bounds hcp recent p hp
        · split at hp
          · exact simple_trend_forecast_bounds hcp recent p hp
          · exact modelLoop_mem_bounds hband _ _ _ _ hp

/-- Witness for C1 at a concrete call: current price 100, empty history,
no model; the theorem bounds the first returned forecast price. -/
theorem forecast_prices_bounded_witness :
    (100 : ℚ) * (93 / 100) ≤
        (forecast_prices sqrtZero (none : Option (OLRState 25 × ScalerState)) 100 []).headD 0 ∧
      (forecast_prices sqrtZero (none : Option (OLRState 25 × ScalerState)) 100 []).headD 0 ≤
        (100 : ℚ) * (107 / 100) :=
  forecast_prices_bounded sqrtZero (none : Option (OLRState 25 × ScalerState)) 100 []
    (by norm_num) _ (by decide)

/-- C6: a forecast call whose recent-price history has length 0, 1 or 2
returns five points all exactly equal to the current price. -/
theorem forecast_prices_degenerate {d : Nat} (sqrtF : ℚ → ℚ)
    (entry : Option (OLRState d × ScalerState)) (cp : ℚ) (recent : List ℚ)
    (h : recent.length ≤ 2) :
    forecast_prices sqrtF entry cp recent = List.replicate 5 cp := by
  have h3 : recent.length < 3 := by omega
  have h5 : recent.length < 5 := by omega
  have hstf : simple_trend_forecast cp recent = List.replicate 5 cp := by
    unfold simple_trend_forecast
    rw [if_pos h3]
    rfl
  cases entry with
  | none => exact hstf
  | some pr =>
    obtain ⟨reg, sc⟩ := pr
    simp only [forecast_prices]
    rw [if_pos h5]
    exact hstf

/-- Witness for C6 at a concrete call: one observation of history. -/
theorem forecast_prices_degenerate_witness :
    forecast_prices sqrtZero (none : Option (OLRState 25 × ScalerState)) 7 [3]
      = List.replicate 5 7 :=
  forecast_prices_degenerate sqrtZero (none : Option (OLRState 25 × ScalerState)) 7 [3]
    (by decide)

/-- C8: predict and the full forecast call are deterministic: identical
regressor state, scaler state and inputs give identical output (the
embedding of both calls is a pure function of state and input). -/
theorem predict_and_forecast_deterministic {d : Nat} (sqrtF : ℚ → ℚ)
    (r1 r2 : OLRState d) (s1 s2 : ScalerState) (x1 x2 : List ℚ)
    (cp1 cp2 : ℚ) (rec1 rec2 : List ℚ)
    (hr : r1 = r2) (hs : s1 = s2) (hx : x1 = x2) (hcp : cp1 = cp2) (hrec : rec1 = rec2) :
    olrPredictRow r1 x1 = olrPredictRow r2 x2 ∧
      forecast_prices sqrtF (some (r1, s1)) cp1 rec1
        = forecast_prices sqrtF (some (r2, s2)) cp2 rec2 := by
  subst hr
  subst hs
  subst hx
  subst hcp
  subst hrec
  exact ⟨rfl, rfl⟩

lemma npClip_keeps_change {cp x : ℚ} (hcp : 0 < cp)
    (h : 1 / 100 < |x - cp| / cp) :
    1 / 100 < |npClip x (cp * (1 - 2 / 100)) (cp * (1 + 2 / 100)) - cp| / cp := by
  rw [lt_div_iff₀ hcp] at h ⊢
  unfold npClip
  rcases le_total x (cp * (1 - 2 / 100)) with h1 | h1
  · rw [max_eq_right h1, min_eq_left (by nlinarith)]
    rw [abs_of_nonpos (by nlinarith)]
    nlinarith
  · rcases le_total (cp * (1 + 2 / 100)) x with h2 | h2
    · rw [max_eq_left h1, min_eq_right h2]
      rw [abs_of_nonneg (by nlinarith)]
      nlinarith
    · rw [max_eq_left h1, min_eq_left h2]
      exact h

/-- C7: whenever the model's predicted normalized value implies an
absolute one-step change of more than one percent of the current price,
the forecast call returns the trend fallback and never emits the raw
model-derived price (the two-percent clip applied first cannot bring the
change back under one percent). -/
theorem model_instability_falls_back {d : Nat} (sqrtF : ℚ → ℚ)
    (reg : OLRState d) (sc : ScalerState) (cp : ℚ) (recent : List ℚ) (pred : ℚ)
    (hcp : 0 < cp)
    (hpred : modelPrediction sqrtF reg sc cp recent = some pred)
    (hbig : 1 / 100 < |pred * cp - cp| / cp) :
    forecast_prices sqrtF (some (reg, sc)) cp recent
      = simple_trend_forecast cp recent := by
  simp only [forecast_prices]
  split
  · rfl
  · simp only [hpred]
    by_cases hband : pred < 1 / 2 ∨ 2 < pred
    · rw [if_pos hband]
    · rw [if_neg hband]
      rw [if_pos (npClip_keeps_change hcp hbig)]

/-- Witness for C7: a constant-1.05 predictor on a flat five-point
history implies a five-percent change, so the call falls back. -/
theorem model_instability_falls_back_witness :
    forecast_prices sqrtZero (some (exReg, exSc)) 100 [100, 100, 100, 100, 100]
      = simple_trend_forecast 100 [100, 100, 100, 100, 100] :=
  model_instability_falls_back sqrtZero exReg exSc 100 [100, 100, 100, 100, 100] (21 / 20)
    (by norm_num)
    (by norm_num [modelPrediction, inferenceFeatures, scalerTransformRow, olrPredictRow, dotQ,
      lastN, listMean, npDiff, listPopVar, sequence_length, exReg, exSc, sqrtZero, handleZero,
      List.zipWith3, List.replicate, Option.bind])
    (by norm_num)

lemma modelStep_bounds {cp last tf : ℚ} (hcp : 0 < cp) (i : Nat) (hi : i + 1 ≤ 5)
    (htf1 : -(5 / 1000) ≤ tf) (htf2 : tf ≤ 5 / 1000)
    (hlb : cp * (199 / 200) ^ i ≤ last) (hub : last ≤ cp * (201 / 200) ^ i) :
    cp * (199 / 200) ^ (i + 1) ≤ last * (1 + tf) ∧
      last * (1 + tf) ≤ cp * (201 / 200) ^ (i + 1) ∧
      cp * (199 / 200) ^ 5 ≤ last * (1 + tf) ∧
      last * (1 + tf) ≤ cp * (201 / 200) ^ 5 ∧
      cp * (93 / 100) ≤ last * (1 + tf) ∧
      last * (1 + tf) ≤ cp * (107 / 100) ∧
      |last * (1 + tf) - last| ≤ 5 / 1000 * last := by
  have hlast : 0 < last := lt_of_lt_of_le (by positivity) hlb
  have h1 : cp * (199 / 200) ^ (i + 1) ≤ last * (1 + tf) := by
    rw [pow_succ, ← mul_assoc]
    have ha : cp * (199 / 200) ^ i * (199 / 200) ≤ last * (199 / 200) :=
      mul_le_mul_of_nonneg_right hlb (by norm_num)
    have hb : last * (199 / 200) ≤ last * (1 + tf) := by nlinarith
    linarith
  have h2 : last * (1 + tf) ≤ cp * (201 / 200) ^ (i + 1) := by
    rw [pow_succ, ← mul_assoc]
    have ha : last * (201 / 200) ≤ cp * (201 / 200) ^ i * (201 / 200) :=
      mul_le_mul_of_nonneg_right hub (by norm_num)
    have hb : last * (1 + tf) ≤ last * (201 / 200) := by nlinarith
    linarith
  have hq5 : ((199 : ℚ) / 200) ^ 5 ≤ (199 / 200) ^ (i + 1) :=
    pow_le_pow_of_le_one (by norm_num) (by norm_num) hi
  have hr5 : ((201 : ℚ) / 200) ^ (i + 1) ≤ (201 / 200) ^ 5 :=
    pow_le_pow_right₀ (by norm_num) hi
  have h3 : cp * (199 / 200) ^ 5 ≤ last * (1 + tf) :=
    le_trans (mul_le_mul_of_nonneg_left hq5 (le_of_lt hcp)) h1
  have h4 : last * (1 + tf) ≤ cp * (201 / 200) ^ 5 :=
    le_trans h2 (mul_le_mul_of_nonneg_left hr5 (le_of_lt hcp))
  have h5 : cp * (93 / 100) ≤ last * (1 + tf) := by
    have hx : ((93 : ℚ) / 100) ≤ (199 / 200) ^ 5 := by norm_num
    have := mul_le_mul_of_nonneg_left hx (le_of_lt hcp)
    linarith
  have h6 : last * (1 + tf) ≤ cp * (107 / 100) := by
    have hx : ((201 : ℚ) / 200) ^ 5 ≤ 107 / 100 := by norm_num
    have := mul_le_mul_of_nonneg_left hx (le_of_lt hcp)
    linarith
  have h7 : |last * (1 + tf) - last| ≤ 5 / 1000 * last := by
    have he : last * (1 + tf) - last = last * tf := by ring
    rw [he, abs_mul, abs_of_pos hlast]
    have habs : |tf| ≤ 5 / 1000 := abs_le.mpr ⟨by linarith, htf2⟩
    nlinarith
  exact ⟨h1, h2, h3, h4, h5, h6, h7⟩

lemma modelLoop_succ_def (cp base : ℚ) (i n : Nat) (last : ℚ) :
    modelLoop cp base i (n + 1) last =
      npClip (last * (1 + npClip (base * (3 / 10) ^ (i + 1)) (-(5 / 1000)) (5 / 1000)))
          (cp * (93 / 100)) (cp * (107 / 100)) ::
        modelLoop cp base (i + 1) n
          (npClip (last * (1 + npClip (base * (3 / 10) ^ (i + 1)) (-(5 / 1000)) (5 / 1000)))
            (cp * (93 / 100)) (cp * (107 / 100))) := rfl

lemma modelLoopU_succ_def (cp base : ℚ) (i n : Nat) (last : ℚ) :
    modelLoopU cp base i (n + 1) last =
      last * (1 + npClip (base * (3 / 10) ^ (i + 1)) (-(5 / 1000)) (5 / 1000)) ::
        modelLoopU cp base (i + 1) n
          (last * (1 + npClip (base * (3 / 10) ^ (i + 1)) (-(5 / 1000)) (5 / 1000))) := rfl

lemma modelLoop_tight (cp base : ℚ) (hcp : 0 < cp) :
    ∀ (fuel i : Nat) (last : ℚ), i + fuel ≤ 5 →
      cp * (199 / 200) ^ i ≤ last → last ≤ cp * (201 / 200) ^ i →
      List.Chain' (fun a b => |b - a| ≤ 5 / 1000 * a)
          (last :: modelLoop cp base i fuel last) ∧
        (∀ p ∈ modelLoop cp base i fuel last,
            cp * (199 / 200) ^ 5 ≤ p ∧ p ≤ cp * (201 / 200) ^ 5) ∧
        modelLoop cp base i fuel last = modelLoopU cp base i fuel last := by
  intro fuel
  induction fuel with
  | zero =>
    intro i last _ _ _
    refine ⟨List.chain'_singleton _, ?_, rfl⟩
    intro p hp
    simp [modelLoop] at hp
  | succ n ih =>
    intro i last hle hlb hub
    obtain ⟨htf1, htf2⟩ :=
      npClip_mem (x := base * (3 / 10) ^ (i + 1))
        (show -(5 / 1000 : ℚ) ≤ 5 / 1000 by norm_num)
    obtain ⟨h1, h2, h3, h4, h5, h6, h7⟩ :=
      modelStep_bounds hcp i (by omega) htf1 htf2 hlb hub
    have hclip :
        npClip (last * (1 + npClip (base * (3 / 10) ^ (i + 1)) (-(5 / 1000)) (5 / 1000)))
            (cp * (93 / 100)) (cp * (107 / 100))
          = last * (1 + npClip (base * (3 / 10) ^ (i + 1)) (-(5 / 1000)) (5 / 1000)) :=
      npClip_eq_self h5 h6
    obtain ⟨ihc, ihm, ihu⟩ :=
      ih (i + 1) (last * (1 + npClip (base * (3 / 10) ^ (i + 1)) (-(5 / 1000)) (5 / 1000)))
        (by omega) h1 h2
    refine ⟨?_, ?_, ?_⟩
    · rw [modelLoop_succ_def, hclip, List.chain'_cons]
      exact ⟨h7, ihc⟩
    · intro p hp
      rw [modelLoop_succ_def, hclip] at hp
      rcases List.mem_cons.mp hp with rfl | hp2
      · exact ⟨h3, h4⟩
      · exact ihm p hp2
    · rw [modelLoop_succ_def, modelLoopU_succ_def, hclip, ihu]

/-- C9: the model-based path either is not taken (the call returns the
trend fallback) or returns the dampened-and-clipped expansion
modelForecast; in the latter, for a positive current price, consecutive
steps move by at most half a percent of the previous price, every value
stays inside current_price times [(199/200)^5, (201/200)^5], and the
seven-percent clamp never binds (the clamped and unclamped expansions
coincide). -/
theorem model_path_tight (cp base : ℚ) (hcp : 0 < cp) :
    (∀ {d : Nat} (sqrtF : ℚ → ℚ) (reg : OLRState d) (sc : ScalerState) (recent : List ℚ),
        forecast_prices sqrtF (some (reg, sc)) cp recent
            = simple_trend_forecast cp recent ∨
          forecast_prices sqrtF (some (reg, sc)) cp recent
            = modelForecast cp (modelBase sqrtF reg sc cp recent)) ∧
      List.Chain' (fun a b => |b - a| ≤ 5 / 1000 * a) (cp :: modelForecast cp base) ∧
      (∀ p ∈ modelForecast cp base,
          cp * (199 / 200) ^ 5 ≤ p ∧ p ≤ cp * (201 / 200) ^ 5) ∧
      modelForecast cp base = modelForecastU cp base := by
  have hmain :=
    modelLoop_tight cp base hcp 5 0 cp (by omega)
      (by rw [pow_zero, mul_one]) (by rw [pow_zero, mul_one])
  refine ⟨?_, hmain.1, hmain.2.1, hmain.2.2⟩
  intro d sqrtF reg sc recent
  simp only [forecast_prices, modelBase]
  split
  · left; rfl
  · cases hmp : modelPrediction sqrtF reg sc cp recent with
    | none => simp [hmp]
    | some np =>
      simp only [hmp]
      by_cases hband : np < 1 / 2 ∨ 2 < np
      · rw [if_pos hband]; left; rfl
      · rw [if_neg hband]
        by_cases hg : 1 / 100 <
            |npClip (np * cp) (cp * (1 - 2 / 100)) (cp * (1 + 2 / 100)) - cp| / cp
        · rw [if_pos hg]; left; rfl
        · rw [if_neg hg]; right; rfl

/-- Witness for C9: at current price 100 and base trend 1/200 the clamped
and unclamped model expansions coincide. -/
theorem model_path_tight_witness :
    modelForecast 100 (1 / 200) = modelForecastU 100 (1 / 200) :=
  (model_path_tight 100 (1 / 200) (by norm_num)).2.2.2

lemma lastN_of_le {l : List ℚ} {n : Nat} (h : l.length ≤ n) : lastN n l = l := by
  unfold lastN
  rw [Nat.sub_eq_zero_of_le h, List.drop_zero]

/-- Counterexample for C2: on the spec's own worked example (current
price 100, ten prices rising by 0.1) the code's fallback forecast starts
at 100.1 (the first step is undampened, exponent k - 1), while the
claim's law (exponent k) predicts 100.07; the two sequences differ. -/
theorem trend_dampening_counterexample :
    simple_trend_forecast 100 exRecent
        = [1001 / 10, 10017 / 100, 100219 / 1000, 1002533 / 10000, 10027731 / 100000] ∧
      claimedTrendForecast 100 exRecent
        = [10007 / 100, 100119 / 1000, 1001533 / 10000, 10017731 / 100000,
            100194117 / 1000000] ∧
      simple_trend_forecast 100 exRecent ≠ claimedTrendForecast 100 exRecent := by
  have h1 : simple_trend_forecast 100 exRecent
      = [1001 / 10, 10017 / 100, 100219 / 1000, 1002533 / 10000, 10027731 / 100000] := by
    norm_num [simple_trend_forecast, trendLoop, npClip, listMean, npDiff, lastN, exRecent,
      min_def, max_def, forecast_horizon]
  have h2 : claimedTrendForecast 100 exRecent
      = [10007 / 100, 100119 / 1000, 1001533 / 10000, 10017731 / 100000,
          100194117 / 1000000] := by
    norm_num [claimedTrendForecast, claimedTrendStep, npClip, listMean, npDiff, lastN,
      exRecent, min_def, max_def, List.range_succ]
  refine ⟨h1, h2, ?_⟩
  rw [h1, h2]
  simp only [ne_eq, List.cons.injEq, not_and]
  intro h
  norm_num at h

/-- C2 as amended: in the trend fallback with at least 3 observations the
dampening exponent for step k is k - 1, not k (the first step applies the
undampened average delta); the code's fallback agrees everywhere with the
so-amended law, and on the spec's worked example the five forecasts are
exactly 100.1, 100.17, 100.219, 100.2533, 100.27731. -/
theorem trend_dampening_amended :
    (∀ (cp : ℚ) (recent : List ℚ),
        simple_trend_forecast cp recent = amendedTrendForecast cp recent) ∧
      simple_trend_forecast 100 exRecent
        = [1001 / 10, 10017 / 100, 100219 / 1000, 1002533 / 10000, 10027731 / 100000] := by
  constructor
  · intro cp recent
    simp only [simple_trend_forecast, amendedTrendForecast]
    split_ifs with h3 h10
    · rfl
    · rw [min_eq_left h10]
      rfl
    · rw [min_eq_right (by omega), lastN_of_le (le_refl _)]
      rfl
  · norm_num [simple_trend_forecast, trendLoop, npClip, listMean, npDiff, lastN, exRecent,
      min_def, max_def, forecast_horizon]

lemma featureRow_changeSlot (sqrtF : ℚ → ℚ) (prices : List ℚ) (i : Nat)
    (h1 : sequence_length ≤ i) (h2 : i ≤ prices.length)
    (href : 0 < prices.getD (i - 1) 0) :
    (featureRow sqrtF prices i).getD (sequence_length + 1) 0
      = (prices.getD i 0 - prices.getD (i - 1) 0) / prices.getD (i - 1) 0 := by
  simp only [featureRow]
  have hlen : ((prices.drop (i - sequence_length)).take sequence_length).length
      = sequence_length := by
    rw [List.length_take, List.length_drop]
    unfold sequence_length at *
    omega
  rw [if_pos href, if_pos href]
  have hlen2 : (((prices.drop (i - sequence_length)).take sequence_length).map
      (· / prices.getD (i - 1) 0)).length = sequence_length := by
    rw [List.length_map, hlen]
  rw [List.getD_append_right _ _ _ _ (by rw [hlen2]; omega)]
  rw [hlen2]
  simp

/-- Counterexample for C3: in the 22-point series that is constant at 100
and jumps to 110 at the end, the training row built at index 21 carries
change-ratio feature (price[21] - price[20]) / price[20] = 1/10 (the
normalized change towards the target), while the claim's formula
(price[20] - price[19]) / price[20] gives 0. -/
theorem change_feature_counterexample :
    ((prepare_features sqrtZero exPrices).getD ([], [])).1[1]?
        = some (featureRow sqrtZero exPrices 21) ∧
      (featureRow sqrtZero exPrices 21).getD (sequence_length + 1) 0 = 1 / 10 ∧
      (exPrices.getD 20 0 - exPrices.getD 19 0) / exPrices.getD 20 0 = 0 ∧
      (1 / 10 : ℚ) ≠ 0 := by
  refine ⟨?_, ?_, ?_, by norm_num⟩
  · norm_num [prepare_features, exPrices, sequence_length, List.range']
  · norm_num [featureRow, exPrices, sequence_length, listMean, listPopVar, sqrtZero,
      List.replicate, List.getD, min_def, max_def]
  · norm_num [exPrices, List.replicate, List.getD]

/-- C3 as amended: for every training example built by feature
preparation at row index k (source index i = sequence_length + k) with a
positive reference price, the change-ratio feature equals
(price[i] - price[i - 1]) / reference with reference = price[i - 1]: the
code normalizes the forward change towards the target, not the last
in-window change the claim states. -/
theorem change_feature_forward (sqrtF : ℚ → ℚ) (prices : List ℚ) (k : Nat) (row : List ℚ)
    (hrow : ((prepare_features sqrtF prices).getD ([], [])).1[k]? = some row)
    (href : 0 < prices.getD (sequence_length + k - 1) 0) :
    row.getD (sequence_length + 1) 0
      = (prices.getD (sequence_length + k) 0 - prices.getD (sequence_length + k - 1) 0)
          / prices.getD (sequence_length + k - 1) 0 := by
  simp only [prepare_features] at hrow
  split at hrow
  · simp at hrow
  · split at hrow
    · simp at hrow
    · simp only [Option.getD_some] at hrow
      rw [List.getElem?_map] at hrow
      have hk : k < prices.length - sequence_length := by
        by_contra hc
        rw [List.getElem?_eq_none] at hrow
        · simp at hrow
        · rw [List.length_range']
          omega
      rw [List.getElem?_range' _ _ hk] at hrow
      simp only [Option.map_some'] at hrow
      have hrow2 : row = featureRow sqrtF prices (sequence_length + 1 * k) :=
        (Option.some_injective _ hrow.symm)
      rw [hrow2]
      have he : sequence_length + 1 * k = sequence_length + k := by omega
      rw [he]
      exact featureRow_changeSlot sqrtF prices (sequence_length + k)
        (by omega) (by unfold sequence_length at *; omega) href

/-- Witness for C3 as amended, at the concrete series exPrices and row
index 1 (source index 21). -/
theorem change_feature_forward_witness :
    (featureRow sqrtZero exPrices 21).getD (sequence_length + 1) 0
      = (exPrices.getD (sequence_length + 1) 0 - exPrices.getD (sequence_length + 1 - 1) 0)
          / exPrices.getD (sequence_length + 1 - 1) 0 :=
  change_feature_forward sqrtZero exPrices 1 (featureRow sqrtZero exPrices 21)
    (by norm_num [prepare_features, exPrices, sequence_length, List.range'])
    (by norm_num [exPrices, sequence_length, List.replicate, List.getD])

/-- C10: feature preparation is total on short inputs: every price series
with fewer than sequence_length + 1 rows (length 0 and 1 included) gives
the (None, None) result, not an exception and not empty arrays. -/
theorem prepare_features_short_none (sqrtF : ℚ → ℚ) (prices : List ℚ)
    (h : prices.length < sequence_length + 1) :
    prepare_features sqrtF prices = none := by
  simp only [prepare_features]
  by_cases h2 : prices.length < 2
  · rw [if_pos h2]
  · rw [if_neg h2]
    have hz : prices.length - sequence_length = 0 := by
      unfold sequence_length at *
      omega
    rw [hz]
    simp [List.range']

/-- Witness for C10 on the empty series. -/
theorem prepare_features_short_none_witness :
    prepare_features sqrtZero [] = none :=
  prepare_features_short_none sqrtZero [] (by decide)

lemma det_gram_add_smul_ne_zero {d m : Nat} (X : Matrix (Fin m) (Fin d) ℚ) {c : ℚ}
    (hc : 0 < c) : (Xᵀ * X + c • (1 : Matrix (Fin d) (Fin d) ℚ)).det ≠ 0 := by
  intro hdet
  obtain ⟨v, hv, hMv⟩ := Matrix.exists_mulVec_eq_zero_iff.mpr hdet
  have hexp : (Xᵀ * X + c • (1 : Matrix (Fin d) (Fin d) ℚ)) *ᵥ v
      = Xᵀ *ᵥ (X *ᵥ v) + c • v := by
    rw [Matrix.add_mulVec, ← Matrix.mulVec_mulVec, Matrix.smul_mulVec_assoc,
      Matrix.one_mulVec]
  have h0 : dotProduct v ((Xᵀ * X + c • (1 : Matrix (Fin d) (Fin d) ℚ)) *ᵥ v) = 0 := by
    rw [hMv, dotProduct_zero]
  rw [hexp, dotProduct_add] at h0
  have h1 : dotProduct v (Xᵀ *ᵥ (X *ᵥ v)) = dotProduct (X *ᵥ v) (X *ᵥ v) := by
    rw [dotProduct_mulVec, Matrix.vecMul_transpose]
  have h2 : dotProduct v (c • v) = c * dotProduct v v := by
    rw [dotProduct_smul, smul_eq_mul]
  have h3 : 0 ≤ dotProduct (X *ᵥ v) (X *ᵥ v) :=
    Finset.sum_nonneg fun i _ => mul_self_nonneg _
  have h4 : dotProduct v v ≠ 0 := fun hz => hv (Matrix.dotProduct_self_eq_zero.mp hz)
  have h5 : 0 ≤ dotProduct v v := Finset.sum_nonneg fun i _ => mul_self_nonneg _
  have h6 : 0 < dotProduct v v := lt_of_le_of_ne h5 (Ne.symm h4)
  nlinarith [h0, h1, h2, h3, h6]

lemma npSolve_solves {d : Nat} {A : Matrix (Fin d) (Fin d) ℚ} {b : Fin d → ℚ}
    (h : A.det ≠ 0) :
    npSolve A b = some (A.det⁻¹ • (A.adjugate *ᵥ b)) ∧
      A *ᵥ (A.det⁻¹ • (A.adjugate *ᵥ b)) = b := by
  constructor
  · unfold npSolve
    rw [if_neg h]
  · rw [Matrix.mulVec_smul, Matrix.mulVec_mulVec, Matrix.mul_adjugate,
      Matrix.smul_mulVec_assoc, Matrix.one_mulVec, smul_smul, inv_mul_cancel₀ h, one_smul]

lemma gram_identical_rows {d m : Nat} {x : Fin d → ℚ} {X : Matrix (Fin m) (Fin d) ℚ}
    (hX : ∀ i, X i = x) : Xᵀ * X = (m : ℚ) • vecMulVec x x := by
  ext a b
  simp [Matrix.mul_apply, Matrix.transpose_apply, hX, Matrix.vecMulVec_apply,
    Matrix.smul_apply, smul_eq_mul, Finset.sum_const, Finset.card_univ, Fintype.card_fin,
    nsmul_eq_mul]

lemma det_vecMulVec_eq_zero {d : Nat} (hd : 2 ≤ d) (x : Fin d → ℚ) :
    (vecMulVec x x).det = 0 := by
  rw [← Matrix.exists_mulVec_eq_zero_iff]
  by_cases hx : x = 0
  · refine ⟨fun _ => 1, ?_, ?_⟩
    · intro h
      have h0 := congrFun h (⟨0, by omega⟩ : Fin d)
      simp at h0
    · subst hx
      ext k
      simp [Matrix.mulVec, Matrix.vecMulVec_apply, dotProduct]
  · obtain ⟨i, hi⟩ : ∃ i, x i ≠ 0 := by
      by_contra hc
      push_neg at hc
      exact hx (funext hc)
    have hnt : Nontrivial (Fin d) := Fin.nontrivial_iff_two_le.mpr hd
    obtain ⟨j, hj⟩ := exists_ne i
    refine ⟨fun k => x i * (if k = j then 1 else 0) - x j * (if k = i then 1 else 0),
      ?_, ?_⟩
    · intro h
      have hj2 := congrFun h j
      simp [hj] at hj2
      exact hi hj2
    · have he : ∀ l, x l * (x i * (if l = j then 1 else 0)
            - x j * (if l = i then 1 else 0))
          = (if l = j then x j * x i else 0) - (if l = i then x i * x j else 0) := by
        intro l
        by_cases h1 : l = j <;> by_cases h2 : l = i <;> simp [h1, h2, hj, Ne.symm hj]
      have hdot : ∑ l, x l * (x i * (if l = j then 1 else 0)
          - x j * (if l = i then 1 else 0)) = 0 := by
        rw [Finset.sum_congr rfl fun l _ => he l, Finset.sum_sub_distrib,
          Finset.sum_ite_eq' Finset.univ j (fun _ => x j * x i),
          Finset.sum_ite_eq' Finset.univ i (fun _ => x i * x j)]
        simp
        ring
      ext k
      have hk : (vecMulVec x x *ᵥ
            (fun k => x i * (if k = j then 1 else 0) - x j * (if k = i then 1 else 0))) k
          = x k * (∑ l, x l * (x i * (if l = j then 1 else 0)
              - x j * (if l = i then 1 else 0))) := by
        simp [Matrix.mulVec, Matrix.vecMulVec_apply, dotProduct, Finset.mul_sum, mul_assoc]
      rw [hk, hdot, mul_zero]
      rfl

/-- C5: partial_fit on a batch whose feature rows are all identical (its
cross-product matrix is singular for d of at least 2) does not raise and
stores a well-defined finite weight vector: the regularized matrix
Xᵀ X + c I is nonsingular for every positive regularization c, so the
primary solve succeeds and the stored weights solve the regularized normal
equation exactly. -/
theorem partial_fit_identical_rows {d m : Nat} (lr c : ℚ) (hc : 0 < c) (hd : 2 ≤ d)
    (x : Fin d → ℚ) (X : Matrix (Fin m) (Fin d) ℚ) (hX : ∀ i, X i = x) (y : Fin m → ℚ) :
    ((olrPartialFit (olrInit d lr c) X y).weights.isSome = true) ∧
      (Xᵀ * X + c • (1 : Matrix (Fin d) (Fin d) ℚ)) *ᵥ
          ((olrPartialFit (olrInit d lr c) X y).weights.getD 0) = Xᵀ *ᵥ y ∧
      (Xᵀ * X).det = 0 := by
  have hdet := det_gram_add_smul_ne_zero X hc
  obtain ⟨hs, hsol⟩ :=
    npSolve_solves (A := Xᵀ * X + c • (1 : Matrix (Fin d) (Fin d) ℚ)) (b := Xᵀ *ᵥ y) hdet
  have hw : (olrPartialFit (olrInit d lr c) X y).weights
      = some ((Xᵀ * X + c • (1 : Matrix (Fin d) (Fin d) ℚ)).det⁻¹ •
          ((Xᵀ * X + c • (1 : Matrix (Fin d) (Fin d) ℚ)).adjugate *ᵥ (Xᵀ *ᵥ y))) := by
    simp only [olrPartialFit, olrInit, zero_add, hs]
  refine ⟨by rw [hw]; rfl, ?_, ?_⟩
  · rw [hw, Option.getD_some]
    exact hsol
  · rw [gram_identical_rows hX, Matrix.det_smul, det_vecMulVec_eq_zero hd x, mul_zero]

/-- Witness for C5: two identical rows (1, 2) with regularization 1/100. -/
theorem partial_fit_identical_rows_witness :
    ((olrPartialFit (olrInit 2 (1 / 1000) (1 / 100)) exX exY).weights.isSome = true) ∧
      (exXᵀ * exX + (1 / 100 : ℚ) • (1 : Matrix (Fin 2) (Fin 2) ℚ)) *ᵥ
          ((olrPartialFit (olrInit 2 (1 / 1000) (1 / 100)) exX exY).weights.getD 0)
        = exXᵀ *ᵥ exY ∧
      (exXᵀ * exX).det = 0 :=
  partial_fit_identical_rows (1 / 1000) (1 / 100) (by norm_num) (by norm_num)
    exRow exX (by intro i; fin_cases i <;> rfl) exY

/-- Counterexample for C4: a training call on a two-row batch of width 3
against a scaler already fitted at width 2 makes the scaler stage raise,
and train_incremental_model propagates the exception instead of training
the regressor on the unscaled raw features. -/
theorem train_no_fallback_counterexample :
    train_incremental_model sqrtZero
        (some (olrInit 2 (1 / 1000) (1 / 100), exScBad)) [[1, 2, 3], [4, 5, 6]] [1, 1]
      = Except.error TrainErr.scalerDim := by
  rfl

/-- C4 as amended: the training path has no handler around the scaling
stage: on a multi-sample batch against a fitted scaler, any scaler
partial_fit failure propagates out of train_incremental_model unchanged;
the regressor is not updated and no raw-features fallback exists. -/
theorem train_scaler_failure_propagates {d : Nat} (sqrtF : ℚ → ℚ)
    (reg : OLRState d) (sc : ScalerState) (features : List (List ℚ)) (targets : List ℚ)
    (e : TrainErr) (hfit : sc.fitted = true) (hmulti : features.length ≠ 1)
    (hfail : scalerPartialFitE sc features = .error e) :
    train_incremental_model sqrtF (some (reg, sc)) features targets = .error e := by
  simp only [train_incremental_model, Option.getD_some]
  rw [if_neg hmulti, if_neg (by simp [hfit])]
  rw [hfail]
  rfl

/-- Witness for C4 as amended at a concrete mismatched batch. -/
theorem train_scaler_failure_propagates_witness :
    train_incremental_model sqrtZero
        (some (olrInit 2 (1 / 1000) (1 / 100), exScBad)) [[7, 8, 9], [10, 11, 12]] [2, 2]
      = Except.error TrainErr.scalerDim :=
  train_scaler_failure_propagates sqrtZero (olrInit 2 (1 / 1000) (1 / 100)) exScBad
    [[7, 8, 9], [10, 11, 12]] [2, 2] TrainErr.scalerDim rfl (by decide) rfl

/-- Witness for C8 at a concrete repeated call. -/
theorem predict_and_forecast_deterministic_witness :
    olrPredictRow (olrInit 25 (1 / 1000) (1 / 100)) [1, 2]
        = olrPredictRow (olrInit 25 (1 / 1000) (1 / 100)) [1, 2] ∧
      forecast_prices sqrtZero (some (olrInit 25 (1 / 1000) (1 / 100), scalerInit)) 100
          [100, 100, 100, 100, 100]
        = forecast_prices sqrtZero (some (olrInit 25 (1 / 1000) (1 / 100), scalerInit)) 100
          [100, 100, 100, 100, 100] :=
  predict_and_forecast_deterministic sqrtZero _ _ _ _ _ _ _ _ _ _ rfl rfl rfl rfl rfl

end OnlineForecasting
